import Mathlib

/-!
Verification development for the session store of `src/app.py` (a Flask
application that mints token-addressed telemetry sessions, bounds each
session history to 200 updates, expires sessions lazily after one hour,
and mirrors the whole store to a JSON file on every mutation).

The Python code is shallowly embedded: JSON values become the inductive
`JVal`, Python dicts holding JSON become association lists, `datetime`
instants become natural numbers (seconds), the `datetime.isoformat` and
`datetime.fromisoformat` pair becomes the executable decimal codec
`toIso` and `parseIso` (lossless and total on the image of `toIso`,
failing on non-numeric strings exactly as `fromisoformat` raises
`ValueError` on unparsable input), and the nondeterministic inputs of a
handler (the wall clock reading and the freshly generated random token)
become explicit parameters.  The durable file plus the in-memory mapping
form a `World`; every call of `persist_sessions_to_disk` is logged in
`World.saves` so that theorems can observe whether a save was triggered.
-/

namespace LiveApp

/-- JSON values, the payloads moved between clients, the store and the
durable file.  JSON numbers are abstracted to integers: the program never
computes with a payload number, it only stores and replays them. -/
inductive JVal where
  | null
  | bool (b : Bool)
  | num (n : Int)
  | str (s : String)
  | arr (xs : List JVal)
  | obj (fields : List (String × JVal))

/-- A Python dict holding JSON values (insertion ordered). -/
abbrev PyDict := List (String × JVal)

/-- Python dict lookup: `d.get(k)` and `d[k]`, first binding wins. -/
def getK (p : PyDict) (k : String) : Option JVal :=
  match p with
  | [] => none
  | q :: rest => if q.1 == k then some q.2 else getK rest k

/-- Python truthiness of a JSON value (`None`, `False`, `0`, `""`, `[]`
and `{}` are falsy, everything else truthy). -/
def JVal.truthy : JVal → Bool
  | .null => false
  | .bool b => b
  | .num n => n != 0
  | .str s => s != ""
  | .arr xs => !xs.isEmpty
  | .obj kvs => !kvs.isEmpty

/-- Model of `str.startswith`: list-level check on the character data. -/
def strStartsWith (s pre : String) : Bool :=
  pre.data.isPrefixOf s.data

/-! ## The ISO timestamp codec

`datetime.isoformat` and `datetime.fromisoformat` are modelled as a
lossless decimal codec on abstract instants (naturals).  The properties
the program relies on are preserved: formatting is injective and never
produces the empty string, parsing inverts formatting, and strings
outside the format fail to parse (the `ValueError` of `fromisoformat`).
-/

/-- Little-endian decimal digits of `n`, with explicit structural fuel
(`fuel` bounds the number of divisions; `fuel = n` always suffices). -/
def digitsAux : Nat → Nat → List Nat
  | 0, _ => []
  | _ + 1, 0 => []
  | fuel + 1, n + 1 => (n + 1) % 10 :: digitsAux fuel ((n + 1) / 10)

/-- Value of a little-endian digit list. -/
def decVal : List Nat → Nat
  | [] => 0
  | d :: ds => d + 10 * decVal ds

/-- The character of a decimal digit. -/
def digitChar (d : Nat) : Char := Char.ofNat (48 + d)

/-- The decimal digit of a character, when it is one. -/
def charDigit (c : Char) : Option Nat :=
  if 48 ≤ c.toNat ∧ c.toNat ≤ 57 then some (c.toNat - 48) else none

/-- Model of `datetime.isoformat`: the canonical textual form of an
instant. -/
def toIso (t : Nat) : String :=
  if t = 0 then "0" else ⟨((digitsAux t t).map digitChar).reverse⟩

/-- Model of `datetime.fromisoformat`: parses the textual form back,
returning `none` (the `ValueError` case) on anything else. -/
def parseIso (s : String) : Option Nat :=
  if s.data.isEmpty then none
  else (s.data.reverse.mapM charDigit).map decVal

theorem decVal_digitsAux (fuel : Nat) :
    ∀ n : Nat, n ≤ fuel → decVal (digitsAux fuel n) = n := by
  induction fuel with
  | zero => intro n hn; interval_cases n; simp [digitsAux, decVal]
  | succ fuel ih =>
    intro n hn
    match n with
    | 0 => simp [digitsAux, decVal]
    | n + 1 =>
      have hdiv : (n + 1) / 10 ≤ fuel := by
        have h1 : (n + 1) / 10 < n + 1 := Nat.div_lt_self (Nat.succ_pos n) (by omega)
        omega
      simp only [digitsAux, decVal, ih _ hdiv]
      omega

theorem digitsAux_lt_ten (fuel : Nat) :
    ∀ n d : Nat, d ∈ digitsAux fuel n → d < 10 := by
  induction fuel with
  | zero => intro n d hd; simp [digitsAux] at hd
  | succ fuel ih =>
    intro n d hd
    match n with
    | 0 => simp [digitsAux] at hd
    | n + 1 =>
      simp only [digitsAux, List.mem_cons] at hd
      rcases hd with h | h
      · omega
      · exact ih _ _ h

theorem digitsAux_ne_nil (fuel n : Nat) (h0 : 0 < n) (hf : 0 < fuel) :
    digitsAux fuel n ≠ [] := by
  match fuel, n with
  | fuel + 1, n + 1 => simp [digitsAux]

theorem charDigit_digitChar : ∀ d : Nat, d < 10 → charDigit (digitChar d) = some d := by
  decide

theorem mapM_charDigit_map_digitChar (ds : List Nat) (h : ∀ d ∈ ds, d < 10) :
    (ds.map digitChar).mapM charDigit = some ds := by
  induction ds with
  | nil => rfl
  | cons d ds ih =>
    have hd : d < 10 := h d (List.mem_cons_self d ds)
    have hds : ∀ x ∈ ds, x < 10 := fun x hx => h x (List.mem_cons_of_mem d hx)
    simp only [List.map_cons, List.mapM_cons, charDigit_digitChar d hd, ih hds]
    rfl

/-- The codec round trips: parsing a formatted instant recovers it. -/
theorem parseIso_toIso (t : Nat) : parseIso (toIso t) = some t := by
  by_cases ht : t = 0
  · subst ht; rfl
  · have h0 : 0 < t := Nat.pos_of_ne_zero ht
    have hne : digitsAux t t ≠ [] := digitsAux_ne_nil t t h0 h0
    have hdata : (toIso t).data = ((digitsAux t t).map digitChar).reverse := by
      simp [toIso, ht]
    have hnonnil : ¬ ((toIso t).data.isEmpty = true) := by
      rw [hdata]
      simp only [List.isEmpty_eq_true, List.reverse_eq_nil_iff, List.map_eq_nil_iff]
      exact hne
    unfold parseIso
    rw [if_neg hnonnil, hdata, List.reverse_reverse,
      mapM_charDigit_map_digitChar _ (digitsAux_lt_ten t t)]
    simp [decVal_digitsAux t t (Nat.le_refl t)]

/-- Formatting never yields the empty string (so a persisted `last_seen`
is always truthy on reload). -/
theorem toIso_ne_empty (t : Nat) : toIso t ≠ "" := by
  by_cases ht : t = 0
  · subst ht; simp [toIso]
  · have h0 : 0 < t := Nat.pos_of_ne_zero ht
    have hne : digitsAux t t ≠ [] := digitsAux_ne_nil t t h0 h0
    simp only [toIso, ht, if_false]
    intro hcontra
    have : ((digitsAux t t).map digitChar).reverse = ([] : List Char) := by
      have := congrArg String.data hcontra
      simpa using this
    simp only [List.reverse_eq_nil_iff, List.map_eq_nil_iff] at this
    exact hne this

/-! ## Data model and store state -/

/-- `MAX_UPDATES` of `src/app.py`: capacity of each session history. -/
def MAX_UPDATES : Nat := 200

/-- `SESSION_TTL_SECONDS` of `src/app.py`: one hour. -/
def SESSION_TTL_SECONDS : Nat := 3600

/-- One in-memory session record, the per-token dict of `src/app.py`
(keys `token`, `created_at`, `expires_at`, `last_seen`, `updates`).
Updates are kept as the raw JSON entries the program appends or reloads,
in arrival order; the bound of 200 is enforced by `dequeAppend` and by
the deque construction in `loadRecord`. -/
structure Session where
  token : String
  created_at : Nat
  expires_at : Nat
  last_seen : Option Nat
  updates : List JVal

/-- The in-memory token to session mapping (the module-level `sessions`
dict), insertion ordered. -/
abbrev Store := List (String × Session)

/-- Dict lookup `sessions.get(token)`. -/
def lookupS (ss : Store) (tok : String) : Option Session :=
  match ss with
  | [] => none
  | p :: rest => if p.1 == tok then some p.2 else lookupS rest tok

/-- Dict removal `sessions.pop(token, None)` (the mapping that remains). -/
def popS (ss : Store) (tok : String) : Store :=
  ss.filter (fun p => p.1 != tok)

/-- Dict assignment `sessions[token] = value`: replaces the binding in
place when the key is present, appends it otherwise. -/
def dictSet (ss : Store) (tok : String) (s : Session) : Store :=
  if ss.any (fun p => p.1 == tok) then
    ss.map (fun p => if p.1 == tok then (tok, s) else p)
  else ss ++ [(tok, s)]

/-- `deque(maxlen=MAX_UPDATES).append`: inserts at the tail, evicting
the head first when the buffer is full. -/
def dequeAppend (xs : List JVal) (x : JVal) : List JVal :=
  if MAX_UPDATES ≤ xs.length then
    xs.drop (xs.length + 1 - MAX_UPDATES) ++ [x]
  else xs ++ [x]

/-- The last `n` elements of a list, in order (what a `deque` built with
`maxlen = n` retains of its initialisation sequence). -/
def takeLast (n : Nat) (l : List α) : List α :=
  l.drop (l.length - n)

/-- Process state: the in-memory mapping plus the log of full snapshots
handed to the durable file, most recent first.  Each call of
`persist_sessions_to_disk` pushes one snapshot, so theorems can tell
"no save was triggered" from "a save wrote unchanged content". -/
structure World where
  sessions : Store
  saves : List JVal

/-! ## PersistenceLayer -/

/-- The serializable per-session record written by
`persist_sessions_to_disk` (token, ISO timestamps, `last_seen` as an
explicit null when absent, and the raw ordered update list). -/
def sessionToJVal (tok : String) (s : Session) : JVal :=
  .obj [("token", .str tok),
        ("created_at", .str (toIso s.created_at)),
        ("expires_at", .str (toIso s.expires_at)),
        ("last_seen", match s.last_seen with
                      | none => .null
                      | some t => .str (toIso t)),
        ("updates", .arr s.updates)]

/-- The full JSON snapshot `persist_sessions_to_disk` serializes. -/
def persistVal (ss : Store) : JVal :=
  .obj (ss.map fun p => (p.1, sessionToJVal p.1 p.2))

/-- One call of `persist_sessions_to_disk`: atomically replaces the
durable file with the snapshot of the current mapping (logged here). -/
def persistW (w : World) : World :=
  { w with saves := persistVal w.sessions :: w.saves }

/-- What `load_sessions_from_disk` finds on disk: no file at all,
a file whose bytes `json.load` rejects, or a parsed JSON document. -/
inductive FileState where
  | missing
  | invalid
  | json (v : JVal)

/-- The Python exceptions that can escape the load path. -/
inductive PyErr where
  | valueError
  | typeError
  | attributeError
deriving DecidableEq

/-- `datetime.fromisoformat` applied to a JSON-derived value: a string
either parses or raises `ValueError`; any non-string raises
`TypeError`. -/
def fromisoJ (v : JVal) : Except PyErr Nat :=
  match v with
  | .str s =>
    match parseIso s with
    | some t => .ok t
    | none => .error .valueError
  | _ => .error .typeError

/-- Python iteration over a JSON value, as `deque(x, maxlen=...)` would
consume it: lists yield elements, strings yield one-character strings,
dicts yield their keys, everything else raises `TypeError`. -/
def iterElems (v : JVal) : Except PyErr (List JVal) :=
  match v with
  | .arr xs => .ok xs
  | .str s => .ok (s.data.map fun c => .str ⟨[c]⟩)
  | .obj kvs => .ok (kvs.map fun q => .str q.1)
  | _ => .error .typeError

/-- One iteration of the loop in `load_sessions_from_disk` over a raw
record.  `.ok none` is the `continue` taken when the guarded block
raises `KeyError` or `ValueError` (missing field, unparsable
`created_at` or `expires_at`); `.error` is an exception escaping the
loop: the `last_seen` reparse and the deque construction sit outside
the `try`, so their failures propagate. -/
def loadRecord (tok : String) (payload : JVal) : Except PyErr (Option Session) :=
  match payload with
  | .obj p =>
    match getK p "created_at" with
    | none => .ok none
    | some cRaw =>
      match fromisoJ cRaw with
      | .error .valueError => .ok none
      | .error e => .error e
      | .ok c =>
        match getK p "expires_at" with
        | none => .ok none
        | some eRaw =>
          match fromisoJ eRaw with
          | .error .valueError => .ok none
          | .error e => .error e
          | .ok ex =>
            let lsRaw := (getK p "last_seen").getD .null
            let updRaw := (getK p "updates").getD (.arr [])
            match (if lsRaw.truthy then (fromisoJ lsRaw).map some else .ok none) with
            | .error e => .error e
            | .ok ls =>
              match iterElems updRaw with
              | .error e => .error e
              | .ok us =>
                .ok (some { token := tok, created_at := c, expires_at := ex,
                            last_seen := ls, updates := takeLast MAX_UPDATES us })
  | _ => .error .typeError

/-- The record loop of `load_sessions_from_disk`, building the `loaded`
dict in iteration order. -/
def loadLoop (items : List (String × JVal)) (acc : Store) : Except PyErr Store :=
  match items with
  | [] => .ok acc
  | (tok, payload) :: rest =>
    match loadRecord tok payload with
    | .error e => .error e
    | .ok none => loadLoop rest acc
    | .ok (some s) => loadLoop rest (dictSet acc tok s)

/-- `load_sessions_from_disk`: a missing or unparsable file yields an
empty mapping; a parsed document is walked record by record (a non-dict
document raises `AttributeError` at `raw.items()`). -/
def load_sessions_from_disk (fs : FileState) : Except PyErr Store :=
  match fs with
  | .missing => .ok []
  | .invalid => .ok []
  | .json (.obj items) => loadLoop items []
  | .json _ => .error .attributeError

/-! ## SessionStore operations

Each Flask handler becomes a function from its nondeterministic inputs
(the wall clock reading `now`, the freshly generated token, the request
payload) and the current `World` to the next `World` and a response.
`abort(code)` becomes an error value. -/

/-- The two aborts of `ensure_session`: 404 unknown token, 410 expired. -/
inductive ApiErr where
  | notFound
  | gone
deriving DecidableEq

/-- `ensure_session`: looks the token up (a present session dict is
non-empty, hence truthy); strictly after `expires_at` it removes the
session, persists, and aborts 410; otherwise it returns the session. -/
def ensure_session (now : Nat) (tok : String) (w : World) : World × Except ApiErr Session :=
  match lookupS w.sessions tok with
  | none => (w, .error .notFound)
  | some s =>
    if s.expires_at < now then
      (persistW { w with sessions := popS w.sessions tok }, .error .gone)
    else (w, .ok s)

/-- The JSON body `create_session` answers with (the two page URLs are
route wiring outside the store and are not modelled). -/
structure CreateResp where
  token : String
  expires_at : String
  ttl_seconds : Nat

/-- `create_session`: `tok` is the fresh `secrets.token_urlsafe(8)`
value, passed in as the generator's output.  The session is inserted
with `sessions[token] = ...` and the whole store persisted. -/
def create_session (tok : String) (now : Nat) (w : World) : World × CreateResp :=
  let s : Session :=
    { token := tok, created_at := now, expires_at := now + SESSION_TTL_SECONDS,
      last_seen := none, updates := [] }
  (persistW { w with sessions := dictSet w.sessions tok s },
   { token := tok, expires_at := toIso (now + SESSION_TTL_SECONDS),
     ttl_seconds := SESSION_TTL_SECONDS })

/-- Outcome of `close_session`. -/
inductive CloseResp where
  | closed
  | notFound
deriving DecidableEq

/-- `close_session`: pops the token with no expiry check; a popped
session dict is truthy, so presence alone decides success. -/
def close_session (tok : String) (w : World) : World × CloseResp :=
  match lookupS w.sessions tok with
  | some _ => (persistW { w with sessions := popS w.sessions tok }, .closed)
  | none => (w, .notFound)

/-- The `entry` dict built by `ingest_update`, with its insertion order
`ts`, optional `location`, optional `frame`, `meta`. -/
structure Entry where
  ts : String
  location : Option (List (String × JVal))
  frame : Option String
  meta : List (String × JVal)

/-- The `location` field of the entry: any dict-valued `location` in the
payload is projected onto the four keys (absent components becoming
null); anything else leaves the field unset. -/
def locField (p : PyDict) : Option (List (String × JVal)) :=
  match getK p "location" with
  | some (.obj l) =>
    some [("lat", (getK l "lat").getD .null),
          ("lng", (getK l "lng").getD .null),
          ("accuracy", (getK l "accuracy").getD .null),
          ("speed", (getK l "speed").getD .null)]
  | _ => none

/-- The `frame` field of the entry: kept only when the payload value is
a string starting with "data:image"; otherwise silently dropped. -/
def frameField (p : PyDict) : Option String :=
  match getK p "frame" with
  | some (.str f) => if strStartsWith f "data:image" then some f else none
  | _ => none

/-- The `meta` field of the entry. -/
def metaOf (p : PyDict) : List (String × JVal) :=
  [("ua", (getK p "userAgent").getD .null),
   ("tzOffsetMinutes", (getK p "tzOffsetMinutes").getD .null)]

/-- The entry `ingest_update` builds: `ts` is the server clock reading
formatted at ingestion; no payload-supplied `ts` is consulted. -/
def mkEntry (now : Nat) (p : PyDict) : Entry :=
  { ts := toIso now, location := locField p, frame := frameField p, meta := metaOf p }

/-- The entry as the JSON dict stored in the session history. -/
def Entry.toJVal (e : Entry) : JVal :=
  .obj ([("ts", .str e.ts)] ++
        (match e.location with | some l => [("location", .obj l)] | none => []) ++
        (match e.frame with | some f => [("frame", .str f)] | none => []) ++
        [("meta", .obj e.meta)])

/-- The acceptance test of `ingest_update` (a set `location` is a
four-key dict, hence truthy; a set `frame` starts with "data:image",
hence non-empty and truthy; so the `not entry.get(...)` checks reduce
to presence). -/
def validPayload (p : PyDict) : Bool :=
  (locField p).isSome || (frameField p).isSome

/-- Outcome of `ingest_update` (`ok`, 400, or the aborts of
`ensure_session`). -/
inductive IngestResp where
  | ok
  | badRequest
  | notFound
  | gone
deriving DecidableEq

/-- `ingest_update`: ensure the session is live, build the entry, reject
with 400 when neither `location` nor `frame` made it in (before any
mutation), else append to the bounded history, stamp `last_seen`, and
persist.  The request body `request.get_json(silent=True) or {}` is a
JSON object here (`PyDict`): a missing, unparsable or null body becomes
the empty dict, which is how the handler consumes it. -/
def ingest_update (now : Nat) (tok : String) (payload : PyDict) (w : World) :
    World × IngestResp :=
  match ensure_session now tok w with
  | (w', .error .notFound) => (w', .notFound)
  | (w', .error .gone) => (w', .gone)
  | (w', .ok s) =>
    let entry := mkEntry now payload
    if entry.location.isNone && entry.frame.isNone then
      (w', .badRequest)
    else
      let s' := { s with updates := dequeAppend s.updates entry.toJVal,
                         last_seen := some now }
      (persistW { w' with sessions := dictSet w'.sessions tok s' }, .ok)

/-- The JSON body `session_status` answers with. -/
structure StatusView where
  token : String
  created : String
  expires_at : String
  last_seen : Option String
  history_count : Nat
  latest : Option JVal
  ttl_seconds : Nat

/-- `session_status`: ensure the session is live and report its
timestamps, history length and latest entry. -/
def session_status (now : Nat) (tok : String) (w : World) :
    World × Except ApiErr StatusView :=
  match ensure_session now tok w with
  | (w', .error e) => (w', .error e)
  | (w', .ok s) =>
    (w', .ok { token := tok, created := toIso s.created_at,
               expires_at := toIso s.expires_at,
               last_seen := s.last_seen.map toIso,
               history_count := s.updates.length,
               latest := s.updates.getLast?,
               ttl_seconds := SESSION_TTL_SECONDS })

/-- A sequence of `ingest_update` calls (clock reading and payload per
call) threaded through the world. -/
def ingestAll (tok : String) (inps : List (Nat × PyDict)) (w : World) : World :=
  inps.foldl (fun wc i => (ingest_update i.1 tok i.2 wc).1) w

/-! ## Helper lemmas on the store dictionary -/

theorem lookupS_popS_self (ss : Store) (tok : String) :
    lookupS (popS ss tok) tok = none := by
  induction ss with
  | nil => rfl
  | cons p rest ih =>
    by_cases h : p.1 = tok
    · simp [popS, List.filter, h, bne_self_eq_false] at ih ⊢
      simpa [popS] using ih
    · have hb : (p.1 != tok) = true := by simp [bne, h]
      simp only [popS, List.filter, hb] at ih ⊢
      simpa [lookupS, h, popS] using ih

theorem lookupS_dictSet_self (ss : Store) (tok : String) (s : Session) :
    lookupS (dictSet ss tok s) tok = some s := by
  unfold dictSet
  by_cases h : ss.any (fun p => p.1 == tok) = true
  · rw [if_pos h]
    induction ss with
    | nil => simp at h
    | cons p rest ih =>
      by_cases hp : p.1 = tok
      · simp [lookupS, hp]
      · have hb : (p.1 == tok) = false := by simp [hp]
        simp only [List.any_cons, hb, Bool.false_or] at h
        simpa [lookupS, hb, hp] using ih h
  · rw [if_neg h]
    induction ss with
    | nil => simp [lookupS]
    | cons p rest ih =>
      simp only [List.any_cons, Bool.or_eq_true, not_or] at h
      have hb : (p.1 == tok) = false := by
        cases hpb : p.1 == tok
        · rfl
        · exact absurd hpb h.1
      simp only [List.cons_append, lookupS, hb, if_false]
      exact ih (by simp [h.2])

theorem lookupS_append (a b : Store) (tok : String) :
    lookupS (a ++ b) tok = ((lookupS a tok).map some).getD (lookupS b tok) := by
  induction a with
  | nil => simp [lookupS]
  | cons p rest ih =>
    by_cases h : p.1 = tok
    · simp [lookupS, h]
    · have hb : (p.1 == tok) = false := by simp [h]
      simpa [lookupS, hb] using ih

theorem any_eq_false_of_lookupS_none (ss : Store) (tok : String)
    (h : lookupS ss tok = none) : ss.any (fun p => p.1 == tok) = false := by
  induction ss with
  | nil => rfl
  | cons p rest ih =>
    by_cases hp : p.1 = tok
    · simp [lookupS, hp] at h
    · have hb : (p.1 == tok) = false := by simp [hp]
      simp only [lookupS, hb, if_false] at h
      simp [List.any_cons, hb, ih h]

theorem dictSet_of_lookupS_none (ss : Store) (tok : String) (s : Session)
    (h : lookupS ss tok = none) : dictSet ss tok s = ss ++ [(tok, s)] := by
  unfold dictSet
  rw [any_eq_false_of_lookupS_none ss tok h]
  simp

/-! ## Helper lemmas on `takeLast` and the bounded deque -/

theorem takeLast_of_le {α : Type} (n : Nat) (l : List α) (h : l.length ≤ n) :
    takeLast n l = l := by
  simp [takeLast, Nat.sub_eq_zero_of_le h]

theorem length_takeLast {α : Type} (n : Nat) (l : List α) :
    (takeLast n l).length = min l.length n := by
  simp only [takeLast, List.length_drop]
  omega

theorem getLast?_takeLast {α : Type} (n : Nat) (l : List α) (hn : 0 < n) :
    (takeLast n l).getLast? = l.getLast? := by
  rcases Nat.lt_or_ge l.length n with h | h
  · rw [takeLast_of_le n l (Nat.le_of_lt h)]
  · have hsplit := List.take_append_drop (l.length - n) l
    have hlen : (l.drop (l.length - n)).length = n := by
      simp only [List.length_drop]; omega
    have hne : l.drop (l.length - n) ≠ [] := by
      intro hc
      rw [hc] at hlen
      simp at hlen
      omega
    calc (takeLast n l).getLast? = (l.drop (l.length - n)).getLast? := rfl
      _ = (l.take (l.length - n) ++ l.drop (l.length - n)).getLast? :=
          (List.getLast?_append_of_ne_nil _ hne).symm
      _ = l.getLast? := by rw [hsplit]

theorem takeLast_append_takeLast {α : Type} (n : Nat) (l r : List α) :
    takeLast n (takeLast n l ++ r) = takeLast n (l ++ r) := by
  simp only [takeLast, List.length_append, List.length_drop,
    List.drop_append_eq_append_drop, List.drop_drop]
  have h1 : l.length - n + (l.length - (l.length - n) + r.length - n)
      = l.length + r.length - n := by omega
  have h2 : l.length - (l.length - n) + r.length - n - (l.length - (l.length - n))
      = l.length + r.length - n - l.length := by omega
  rw [h1, h2]

theorem dequeAppend_eq_takeLast (xs : List JVal) (x : JVal)
    (h : xs.length ≤ MAX_UPDATES) :
    dequeAppend xs x = takeLast MAX_UPDATES (xs ++ [x]) := by
  unfold dequeAppend takeLast
  have hM : MAX_UPDATES = 200 := rfl
  by_cases hc : MAX_UPDATES ≤ xs.length
  · rw [if_pos hc]
    have h2 : xs.length + 1 - MAX_UPDATES - xs.length = 0 := by omega
    rw [List.length_append, List.length_singleton, List.drop_append_eq_append_drop, h2,
      List.drop_zero]
  · rw [if_neg hc]
    have h0 : xs.length + 1 - MAX_UPDATES = 0 := by omega
    rw [List.length_append, List.length_singleton, h0, List.drop_zero]

theorem length_dequeAppend (xs : List JVal) (x : JVal)
    (h : xs.length ≤ MAX_UPDATES) :
    (dequeAppend xs x).length = min (xs.length + 1) MAX_UPDATES := by
  rw [dequeAppend_eq_takeLast xs x h, length_takeLast]
  simp only [List.length_append, List.length_singleton]

theorem getLast?_dequeAppend (xs : List JVal) (x : JVal) :
    (dequeAppend xs x).getLast? = some x := by
  unfold dequeAppend
  by_cases hc : MAX_UPDATES ≤ xs.length
  · rw [if_pos hc, List.getLast?_concat]
  · rw [if_neg hc, List.getLast?_concat]

theorem foldl_dequeAppend (es : List JVal) (xs : List JVal)
    (h : xs.length ≤ MAX_UPDATES) :
    es.foldl dequeAppend xs = takeLast MAX_UPDATES (xs ++ es) := by
  induction es generalizing xs with
  | nil => simpa using (takeLast_of_le MAX_UPDATES xs h).symm
  | cons e es ih =>
    have hlen : (dequeAppend xs e).length ≤ MAX_UPDATES := by
      rw [length_dequeAppend xs e h]; omega
    calc (e :: es).foldl dequeAppend xs = es.foldl dequeAppend (dequeAppend xs e) := rfl
      _ = takeLast MAX_UPDATES (dequeAppend xs e ++ es) := ih _ hlen
      _ = takeLast MAX_UPDATES (takeLast MAX_UPDATES (xs ++ [e]) ++ es) := by
          rw [dequeAppend_eq_takeLast xs e h]
      _ = takeLast MAX_UPDATES ((xs ++ [e]) ++ es) := takeLast_append_takeLast _ _ _
      _ = takeLast MAX_UPDATES (xs ++ e :: es) := by
          rw [List.append_assoc]; rfl

/-! ## Helper lemmas on the operations -/

theorem ensure_session_live (now : Nat) (tok : String) (w : World) (s : Session)
    (hs : lookupS w.sessions tok = some s) (hnow : now ≤ s.expires_at) :
    ensure_session now tok w = (w, .ok s) := by
  unfold ensure_session
  rw [hs]
  simp [Nat.not_lt.mpr hnow]

theorem getK_cons_of_ne (k k' : String) (v : JVal) (p : PyDict)
    (h : (k == k') = false) : getK ((k, v) :: p) k' = getK p k' := by
  simp [getK, h]

/-- A payload accepted by the validation drives `ingest_update` into its
mutating branch. -/
theorem ingest_update_accepted (now : Nat) (tok : String) (p : PyDict) (w : World)
    (s : Session) (hs : lookupS w.sessions tok = some s) (hnow : now ≤ s.expires_at)
    (hv : validPayload p = true) :
    ingest_update now tok p w
      = (persistW { w with sessions := (dictSet w.sessions tok
          { s with updates := dequeAppend s.updates (mkEntry now p).toJVal,
                   last_seen := some now }) }, .ok) := by
  unfold ingest_update
  rw [ensure_session_live now tok w s hs hnow]
  have hcond : ((mkEntry now p).location.isNone && (mkEntry now p).frame.isNone) = false := by
    have hv' : ((locField p).isSome || (frameField p).isSome) = true := hv
    cases hlo : locField p <;> cases hfr : frameField p <;>
      simp [mkEntry, hlo, hfr] at hv' ⊢
  simp [hcond]

/-! ## Claim theorems -/

/-- The durable file of claim C1: the record under key "good" is fully
well formed, the record under key "bad" differs only in an unparsable
`last_seen` string. -/
def c1GoodRecord : JVal :=
  .obj [("created_at", .str (toIso 10)), ("expires_at", .str (toIso 3610)),
        ("last_seen", .null), ("updates", .arr [])]

/-- See `c1GoodRecord`. -/
def c1BadRecord : JVal :=
  .obj [("created_at", .str (toIso 10)), ("expires_at", .str (toIso 3610)),
        ("last_seen", .str "not-a-timestamp"), ("updates", .arr [])]

/-- Claim C1, evaluated at the failing input.  The per-record skip of
`load_sessions_from_disk` covers only `created_at` and `expires_at`: the
`last_seen` reparse on line 48 of `src/app.py` sits outside the
`try`/`except`, so a record whose `last_seen` is a non-empty unparsable
string raises an uncaught `ValueError` and the whole load crashes
instead of skipping the record — even though another record in the same
file is perfectly valid.  Missing and unparsable files do yield the
empty mapping, as the claim states. -/
theorem c1_load_crashes_on_unparsable_last_seen :
    load_sessions_from_disk
        (.json (.obj [("good", c1GoodRecord), ("bad", c1BadRecord)]))
      = .error .valueError ∧
    load_sessions_from_disk .missing = .ok [] ∧
    load_sessions_from_disk .invalid = .ok [] :=
  ⟨rfl, rfl, rfl⟩

/-- Claim C2 (amended): `create_session` generates one token and inserts
the new session unconditionally — `sessions[token] = ...` replaces any
existing binding, there is no duplicate check or retry — and the
inserted session has `created_at = now`, `expires_at = now + 3600`,
`last_seen = none` and an empty update buffer. -/
theorem c2_create_inserts_unconditionally (w : World) (tok : String) (now : Nat) :
    lookupS (create_session tok now w).1.sessions tok
      = some { token := tok, created_at := now,
               expires_at := now + SESSION_TTL_SECONDS,
               last_seen := none, updates := [] } ∧
    (create_session tok now w).2
      = { token := tok, expires_at := toIso (now + SESSION_TTL_SECONDS),
          ttl_seconds := SESSION_TTL_SECONDS } :=
  ⟨lookupS_dictSet_self w.sessions tok _, rfl⟩

/-- The pre-existing session of the claim C2 counterexample. -/
def c2Session : Session :=
  { token := "t", created_at := 0, expires_at := 3600, last_seen := none, updates := [] }

/-- The store already holding `c2Session` under the very token the
generator is about to produce. -/
def c2World : World := { sessions := [("t", c2Session)], saves := [] }

/-- Claim C2 counterexample: when the freshly generated token collides
with an existing session, `create_session` does not retry — it
overwrites the existing session, so the claimed "never replaces or
overwrites" fails at this concrete input. -/
theorem c2_counterexample :
    lookupS c2World.sessions "t" = some c2Session ∧
    ¬ lookupS (create_session "t" 5 c2World).1.sessions "t" = some c2Session := by
  refine ⟨rfl, fun hcontra => ?_⟩
  have h5 : lookupS (create_session "t" 5 c2World).1.sessions "t"
      = some { token := "t", created_at := 5, expires_at := 3605,
               last_seen := none, updates := [] } := rfl
  rw [h5] at hcontra
  have h50 : (5 : Nat) = 0 := congrArg Session.created_at (Option.some.inj hcontra)
  exact absurd h50 (by decide)

/-- Claim C3: an access through `ensure_session` signals 410 and removes
the session exactly when `now` is strictly past `expires_at`; at
`now = expires_at` (and any earlier instant) it returns the live session
untouched; and once the expired session is removed, every later access
with the same token — `ensure_session` itself, `ingest_update`,
`session_status` — signals 404. -/
theorem c3_lazy_expiry (w : World) (tok : String) (s : Session) (now now2 : Nat)
    (h : lookupS w.sessions tok = some s) :
    ((ensure_session now tok w).2 = .error .gone ↔ s.expires_at < now) ∧
    (¬ s.expires_at < now → ensure_session now tok w = (w, .ok s)) ∧
    (s.expires_at < now →
      lookupS (ensure_session now tok w).1.sessions tok = none ∧
      (ensure_session now2 tok (ensure_session now tok w).1).2 = .error .notFound ∧
      (∀ p : PyDict,
        (ingest_update now2 tok p (ensure_session now tok w).1).2 = .notFound) ∧
      (session_status now2 tok (ensure_session now tok w).1).2 = .error .notFound) := by
  have hM : ensure_session now tok w
      = (if s.expires_at < now then
          (persistW { w with sessions := popS w.sessions tok }, .error .gone)
         else (w, .ok s)) := by
    unfold ensure_session; rw [h]
  by_cases hexp : s.expires_at < now
  · rw [hM, if_pos hexp]
    have hnone : lookupS (persistW { w with sessions := popS w.sessions tok }).sessions tok
        = none := lookupS_popS_self w.sessions tok
    have hens2 : ensure_session now2 tok (persistW { w with sessions := popS w.sessions tok })
        = (persistW { w with sessions := popS w.sessions tok }, .error .notFound) := by
      unfold ensure_session; rw [hnone]
    refine ⟨by simp [hexp], fun hc => absurd hexp hc, fun _ => ⟨hnone, ?_, ?_, ?_⟩⟩
    · rw [hens2]
    · intro p
      unfold ingest_update
      rw [hens2]
    · unfold session_status
      rw [hens2]
  · rw [hM, if_neg hexp]
    exact ⟨by simp [hexp], fun _ => rfl, fun hc => absurd hc hexp⟩

/-- The session and world instantiating claim C3. -/
def c3Session : Session :=
  { token := "t", created_at := 0, expires_at := 3600, last_seen := none, updates := [] }

/-- See `c3Session`. -/
def c3World : World := { sessions := [("t", c3Session)], saves := [] }

/-- Claim C3 at a concrete input: the session expiring at 3600 is live
at 3600 and expired at 3601, after which token "t" is gone. -/
theorem c3_lazy_expiry_witness :
    ((ensure_session 3601 "t" c3World).2 = .error .gone ↔ c3Session.expires_at < 3601) ∧
    (¬ c3Session.expires_at < 3601 → ensure_session 3601 "t" c3World = (c3World, .ok c3Session)) ∧
    (c3Session.expires_at < 3601 →
      lookupS (ensure_session 3601 "t" c3World).1.sessions "t" = none ∧
      (ensure_session 3600 "t" (ensure_session 3601 "t" c3World).1).2 = .error .notFound ∧
      (∀ p : PyDict,
        (ingest_update 3600 "t" p (ensure_session 3601 "t" c3World).1).2 = .notFound) ∧
      (session_status 3600 "t" (ensure_session 3601 "t" c3World).1).2 = .error .notFound) :=
  c3_lazy_expiry c3World "t" c3Session 3601 3600 rfl

/-- Claim C6: on a live session, a payload carrying neither a
dict-valued `location` nor an accepted `frame` string is rejected with
400 and the world is returned untouched — same store (so unchanged
history, `last_seen` and buffer) and same save log (no persistence save
is triggered). -/
theorem c6_invalid_payload_no_mutation (w : World) (tok : String) (s : Session)
    (now : Nat) (p : PyDict)
    (hs : lookupS w.sessions tok = some s) (hlive : now ≤ s.expires_at)
    (hbad : validPayload p = false) :
    ingest_update now tok p w = (w, .badRequest) := by
  unfold ingest_update
  rw [ensure_session_live now tok w s hs hlive]
  have hl : locField p = none := by
    cases hlo : locField p with
    | none => rfl
    | some v => unfold validPayload at hbad; rw [hlo] at hbad; simp at hbad
  have hf : frameField p = none := by
    cases hfr : frameField p with
    | none => rfl
    | some v => unfold validPayload at hbad; rw [hfr] at hbad; simp at hbad
  simp [mkEntry, hl, hf]

/-- The live session and world instantiating claim C6. -/
def c6Session : Session :=
  { token := "t", created_at := 0, expires_at := 3600, last_seen := none, updates := [] }

/-- See `c6Session`. -/
def c6World : World := { sessions := [("t", c6Session)], saves := [] }

/-- Claim C6 at a concrete input: an empty payload against the live
session is rejected and the world is unchanged. -/
theorem c6_invalid_payload_no_mutation_witness :
    ingest_update 5 "t" [] c6World = (c6World, .badRequest) :=
  c6_invalid_payload_no_mutation c6World "t" c6Session 5 [] rfl (by decide) rfl

/-- Claim C7: `close_session` removes a present session unconditionally
— it never consults the clock, so even a TTL-elapsed session is removed
with a success result — pushes a persistence save of the shrunken store,
and a second close of the same token (like any close of an absent token)
answers 404 and leaves the world untouched. -/
theorem c7_close_unconditional (w : World) (tok : String) :
    (∀ s : Session, lookupS w.sessions tok = some s →
      close_session tok w
        = (persistW { w with sessions := popS w.sessions tok }, .closed) ∧
      lookupS (close_session tok w).1.sessions tok = none ∧
      (close_session tok (close_session tok w).1).2 = .notFound ∧
      (close_session tok w).1.saves = persistVal (popS w.sessions tok) :: w.saves) ∧
    (lookupS w.sessions tok = none → close_session tok w = (w, .notFound)) := by
  constructor
  · intro s hsome
    have hclose : close_session tok w
        = (persistW { w with sessions := popS w.sessions tok }, .closed) := by
      unfold close_session; rw [hsome]
    have hnone : lookupS (persistW { w with sessions := popS w.sessions tok }).sessions tok
        = none := lookupS_popS_self w.sessions tok
    refine ⟨hclose, by rw [hclose]; exact hnone, ?_, by rw [hclose]; rfl⟩
    rw [hclose]
    unfold close_session
    rw [hnone]
  · intro hnone
    unfold close_session
    rw [hnone]

/-- The session and world instantiating claim C7 — already past its
TTL at any clock the caller could hold, to witness that close ignores
expiry. -/
def c7Session : Session :=
  { token := "t", created_at := 0, expires_at := 3600, last_seen := none, updates := [] }

/-- See `c7Session`. -/
def c7World : World := { sessions := [("t", c7Session)], saves := [] }

/-- Claim C7 at a concrete input. -/
theorem c7_close_unconditional_witness :
    close_session "t" c7World
      = (persistW { c7World with sessions := popS c7World.sessions "t" }, .closed) ∧
    lookupS (close_session "t" c7World).1.sessions "t" = none ∧
    (close_session "t" (close_session "t" c7World).1).2 = .notFound ∧
    (close_session "t" c7World).1.saves
      = persistVal (popS c7World.sessions "t") :: c7World.saves :=
  (c7_close_unconditional c7World "t").1 c7Session rfl

/-- Payload-supplied `ts` never reaches the entry: consing a `ts`
binding onto a payload changes nothing `mkEntry` reads. -/
theorem mkEntry_ignores_client_ts (now : Nat) (p : PyDict) (v : JVal) :
    mkEntry now (("ts", v) :: p) = mkEntry now p := by
  unfold mkEntry locField frameField metaOf
  rw [getK_cons_of_ne "ts" "location" v p rfl, getK_cons_of_ne "ts" "frame" v p rfl,
      getK_cons_of_ne "ts" "userAgent" v p rfl,
      getK_cons_of_ne "ts" "tzOffsetMinutes" v p rfl]

/-- Payloads building the same entry drive `ingest_update` identically. -/
theorem ingest_update_congr (now : Nat) (tok : String) (p1 p2 : PyDict) (w : World)
    (h : mkEntry now p1 = mkEntry now p2) :
    ingest_update now tok p1 w = ingest_update now tok p2 w := by
  unfold ingest_update
  rw [h]

/-- Claim C8: the stored `ts` is the formatted server clock reading at
ingestion, and client-supplied `ts` values are ignored: two calls on the
same world with the same server clock, whose payloads differ only in the
client `ts` binding, behave identically (same stored record, same
response, same save). -/
theorem c8_server_assigned_ts (now : Nat) (tok : String) (w : World)
    (p : PyDict) (v1 v2 : JVal) :
    (mkEntry now (("ts", v1) :: p)).ts = toIso now ∧
    ingest_update now tok (("ts", v1) :: p) w
      = ingest_update now tok (("ts", v2) :: p) w :=
  ⟨rfl, ingest_update_congr now tok _ _ w
    (by rw [mkEntry_ignores_client_ts, mkEntry_ignores_client_ts])⟩

/-- Claim C10: a payload whose `location` is any JSON object — even one
with none of the four component keys — passes the validation and is
accepted, the stored `location` having all four components null; whereas
a `frame` string not beginning with "data:image" is silently dropped
before the validation runs, so a payload carrying only such a frame is
rejected. -/
theorem c10_empty_location_accepted_bad_frame_dropped (w : World) (tok : String)
    (s : Session) (now : Nat)
    (hs : lookupS w.sessions tok = some s) (hlive : now ≤ s.expires_at) :
    (∀ l : List (String × JVal),
      (ingest_update now tok [("location", .obj l)] w).2 = .ok ∧
      (getK l "lat" = none → getK l "lng" = none → getK l "accuracy" = none →
        getK l "speed" = none →
        (mkEntry now [("location", .obj l)]).location
          = some [("lat", .null), ("lng", .null), ("accuracy", .null), ("speed", .null)] ∧
        ∃ u : Session,
          lookupS (ingest_update now tok [("location", .obj l)] w).1.sessions tok = some u ∧
          u.updates.getLast? = some (mkEntry now [("location", .obj l)]).toJVal)) ∧
    (∀ f : String, strStartsWith f "data:image" = false →
      (mkEntry now [("frame", .str f)]).frame = none ∧
      (ingest_update now tok [("frame", .str f)] w).2 = .badRequest) := by
  constructor
  · intro l
    have hvalid : validPayload [("location", .obj l)] = true := rfl
    have hing := ingest_update_accepted now tok [("location", .obj l)] w s hs hlive hvalid
    refine ⟨by rw [hing], fun h1 h2 h3 h4 => ⟨?_, ?_⟩⟩
    · have hred : (mkEntry now [("location", .obj l)]).location
          = some [("lat", (getK l "lat").getD .null), ("lng", (getK l "lng").getD .null),
                  ("accuracy", (getK l "accuracy").getD .null),
                  ("speed", (getK l "speed").getD .null)] := rfl
      rw [hred, h1, h2, h3, h4]
      rfl
    · rw [hing]
      exact ⟨_, lookupS_dictSet_self w.sessions tok _, getLast?_dequeAppend _ _⟩
  · intro f hf
    have hfr : frameField [("frame", .str f)] = none := by
      have hred : frameField [("frame", .str f)]
          = (if strStartsWith f "data:image" = true then some f else none) := rfl
      rw [hred, hf]
      rfl
    have hlo : locField [("frame", .str f)] = none := rfl
    refine ⟨hfr, ?_⟩
    unfold ingest_update
    rw [ensure_session_live now tok w s hs hlive]
    simp [mkEntry, hfr, hlo]

/-- The live session and world instantiating claim C10. -/
def c10Session : Session :=
  { token := "t", created_at := 0, expires_at := 3600, last_seen := none, updates := [] }

/-- See `c10Session`. -/
def c10World : World := { sessions := [("t", c10Session)], saves := [] }

/-- Claim C10 at a concrete input: an empty location object is accepted,
a non-image frame string alone is rejected. -/
theorem c10_empty_location_accepted_bad_frame_dropped_witness :
    ((ingest_update 5 "t" [("location", .obj [])] c10World).2 = .ok ∧
      ((mkEntry 5 [("location", .obj [])]).location
          = some [("lat", .null), ("lng", .null), ("accuracy", .null), ("speed", .null)] ∧
        ∃ u : Session,
          lookupS (ingest_update 5 "t" [("location", .obj [])] c10World).1.sessions "t"
            = some u ∧
          u.updates.getLast? = some (mkEntry 5 [("location", .obj [])]).toJVal)) ∧
    ((mkEntry 5 [("frame", .str "hello")]).frame = none ∧
      (ingest_update 5 "t" [("frame", .str "hello")] c10World).2 = .badRequest) := by
  have h := c10_empty_location_accepted_bad_frame_dropped c10World "t" c10Session 5
    rfl (by decide)
  exact ⟨⟨(h.1 []).1, (h.1 []).2 rfl rfl rfl rfl⟩, h.2 "hello" rfl⟩

/-- Folding accepted ingests over a live session: the session stays
present with its expiry unchanged, and its buffer is the deque fold of
the built entries. -/
theorem ingestAll_updates (inps : List (Nat × PyDict)) (tok : String) :
    ∀ (w : World) (s : Session),
      lookupS w.sessions tok = some s →
      (∀ i ∈ inps, validPayload i.2 = true ∧ i.1 ≤ s.expires_at) →
      ∃ u : Session,
        lookupS (ingestAll tok inps w).sessions tok = some u ∧
        u.expires_at = s.expires_at ∧
        u.updates
          = (inps.map (fun i => (mkEntry i.1 i.2).toJVal)).foldl dequeAppend s.updates := by
  induction inps with
  | nil => exact fun w s hs _ => ⟨s, hs, rfl, rfl⟩
  | cons i rest ih =>
    intro w s hs hv
    obtain ⟨hvi, hni⟩ := hv i (List.mem_cons_self i rest)
    have hstep := ingest_update_accepted i.1 tok i.2 w s hs hni hvi
    generalize hs1 : ({ s with updates := dequeAppend s.updates (mkEntry i.1 i.2).toJVal, last_seen := some i.1 } : Session) = s1 at hstep
    have hexp : s1.expires_at = s.expires_at := by rw [← hs1]
    have hupd1 : s1.updates = dequeAppend s.updates (mkEntry i.1 i.2).toJVal := by
      rw [← hs1]
    have hw1 : ingestAll tok (i :: rest) w
        = ingestAll tok rest (persistW { w with sessions := dictSet w.sessions tok s1 }) := by
      unfold ingestAll
      rw [List.foldl_cons, hstep]
    have hs' : lookupS (persistW { w with sessions := dictSet w.sessions tok s1 }).sessions tok
        = some s1 := lookupS_dictSet_self w.sessions tok s1
    obtain ⟨u, hu1, hu2, hu3⟩ := ih _ s1 hs'
      (fun j hj => ⟨(hv j (List.mem_cons_of_mem i hj)).1,
        by rw [hexp]; exact (hv j (List.mem_cons_of_mem i hj)).2⟩)
    refine ⟨u, ?_, ?_, ?_⟩
    · rw [hw1]; exact hu1
    · rw [hu2, hexp]
    · rw [hu3, hupd1, List.map_cons, List.foldl_cons]

/-- Claim C4: starting from a live session with an empty buffer, a
sequence of accepted appends leaves exactly the most recent 200 built
entries, in arrival order; with at most 200 appends the buffer is the
whole sequence; `session_status` reports the matching `history_count`
and, as `latest`, the last entry appended. -/
theorem c4_bounded_history (w : World) (tok : String) (s : Session)
    (inps : List (Nat × PyDict)) (now2 : Nat)
    (hs : lookupS w.sessions tok = some s) (h0 : s.updates = [])
    (hv : ∀ i ∈ inps, validPayload i.2 = true ∧ i.1 ≤ s.expires_at)
    (hnow : now2 ≤ s.expires_at) :
    ∃ u : Session,
      lookupS (ingestAll tok inps w).sessions tok = some u ∧
      u.updates = takeLast MAX_UPDATES (inps.map fun i => (mkEntry i.1 i.2).toJVal) ∧
      u.updates.length = min inps.length MAX_UPDATES ∧
      (inps.length ≤ MAX_UPDATES →
        u.updates = inps.map fun i => (mkEntry i.1 i.2).toJVal) ∧
      ∃ v : StatusView,
        (session_status now2 tok (ingestAll tok inps w)).2 = .ok v ∧
        v.history_count = min inps.length MAX_UPDATES ∧
        v.latest = (inps.map fun i => (mkEntry i.1 i.2).toJVal).getLast? := by
  obtain ⟨u, hu1, hu2, hu3⟩ := ingestAll_updates inps tok w s hs hv
  rw [h0] at hu3
  have hupd : u.updates
      = takeLast MAX_UPDATES (inps.map fun i => (mkEntry i.1 i.2).toJVal) := by
    rw [hu3, foldl_dequeAppend _ [] (by simp)]
    rfl
  have hlen : u.updates.length = min inps.length MAX_UPDATES := by
    rw [hupd, length_takeLast, List.length_map]
  have hstat : session_status now2 tok (ingestAll tok inps w)
      = (ingestAll tok inps w,
         .ok { token := tok, created := toIso u.created_at,
               expires_at := toIso u.expires_at, last_seen := u.last_seen.map toIso,
               history_count := u.updates.length, latest := u.updates.getLast?,
               ttl_seconds := SESSION_TTL_SECONDS }) := by
    unfold session_status
    rw [ensure_session_live now2 tok _ u hu1 (by omega)]
  refine ⟨u, hu1, hupd, hlen, fun hle => ?_, ?_⟩
  · rw [hupd]
    exact takeLast_of_le _ _ (by rw [List.length_map]; exact hle)
  · have hlast : u.updates.getLast?
        = (inps.map fun i => (mkEntry i.1 i.2).toJVal).getLast? := by
      rw [hupd]
      exact getLast?_takeLast _ _ (by norm_num [MAX_UPDATES])
    exact ⟨_, by rw [hstat], hlen, hlast⟩

/-- The live session and world instantiating claim C4. -/
def c4Session : Session :=
  { token := "t", created_at := 0, expires_at := 3600, last_seen := none, updates := [] }

/-- See `c4Session`. -/
def c4World : World := { sessions := [("t", c4Session)], saves := [] }

/-- The two accepted appends of the claim C4 witness. -/
def c4Inputs : List (Nat × PyDict) :=
  [(1, [("location", .obj [("lat", .num 1), ("lng", .num 2)])]),
   (2, [("frame", .str "data:image/jpeg;base64,x")])]

/-- Claim C4 at a concrete input: two accepted appends give history
count 2 and the second entry as latest. -/
theorem c4_bounded_history_witness :
    ∃ u : Session,
      lookupS (ingestAll "t" c4Inputs c4World).sessions "t" = some u ∧
      u.updates = takeLast MAX_UPDATES (c4Inputs.map fun i => (mkEntry i.1 i.2).toJVal) ∧
      u.updates.length = min c4Inputs.length MAX_UPDATES ∧
      (c4Inputs.length ≤ MAX_UPDATES →
        u.updates = c4Inputs.map fun i => (mkEntry i.1 i.2).toJVal) ∧
      ∃ v : StatusView,
        (session_status 10 "t" (ingestAll "t" c4Inputs c4World)).2 = .ok v ∧
        v.history_count = min c4Inputs.length MAX_UPDATES ∧
        v.latest = (c4Inputs.map fun i => (mkEntry i.1 i.2).toJVal).getLast? :=
  c4_bounded_history c4World "t" c4Session c4Inputs 10 rfl rfl (by decide) (by decide)

/-- The reload of a formatted timestamp succeeds with the original
instant. -/
theorem fromisoJ_toIso (t : Nat) : fromisoJ (.str (toIso t)) = .ok t := by
  simp only [fromisoJ]
  rw [parseIso_toIso]

/-- Reloading the record persisted for a session recovers the session,
its token taken from the mapping key. -/
theorem loadRecord_sessionToJVal (tok : String) (s : Session)
    (hlen : s.updates.length ≤ MAX_UPDATES) :
    loadRecord tok (sessionToJVal tok s) = .ok (some { s with token := tok }) := by
  have htake : takeLast MAX_UPDATES s.updates = s.updates := takeLast_of_le _ _ hlen
  cases hls : s.last_seen with
  | none =>
    simp [loadRecord, sessionToJVal, getK, hls, fromisoJ_toIso, JVal.truthy, iterElems,
      htake]
  | some t =>
    have hne : (toIso t != "") = true := by
      simp [bne_iff_ne, toIso_ne_empty t]
    simp [loadRecord, sessionToJVal, getK, hls, fromisoJ_toIso, hne, JVal.truthy,
      iterElems, htake, Except.map]

/-- Walking the persisted items over a store whose keys are fresh for
the accumulator appends exactly the original sessions. -/
theorem loadLoop_persist (ss : Store) :
    ∀ acc : Store,
      (∀ p ∈ ss, p.2.token = p.1) →
      (∀ p ∈ ss, p.2.updates.length ≤ MAX_UPDATES) →
      (ss.map Prod.fst).Nodup →
      (∀ p ∈ ss, lookupS acc p.1 = none) →
      loadLoop (ss.map fun p => (p.1, sessionToJVal p.1 p.2)) acc = .ok (acc ++ ss) := by
  induction ss with
  | nil => intro acc _ _ _ _; simp [loadLoop]
  | cons q rest ih =>
    intro acc htok hlen hnodup hdisj
    have hrec : loadRecord q.1 (sessionToJVal q.1 q.2) = .ok (some q.2) := by
      rw [loadRecord_sessionToJVal q.1 q.2 (hlen q (List.mem_cons_self q rest)),
        ← htok q (List.mem_cons_self q rest)]
    have hset : dictSet acc q.1 q.2 = acc ++ [(q.1, q.2)] :=
      dictSet_of_lookupS_none acc q.1 q.2 (hdisj q (List.mem_cons_self q rest))
    have hnodup' : (q.1 :: rest.map Prod.fst).Nodup := by
      rw [List.map_cons] at hnodup; exact hnodup
    obtain ⟨hqnotin, hrestnodup⟩ := List.nodup_cons.mp hnodup'
    have hstep : ∀ p ∈ rest, lookupS (acc ++ [(q.1, q.2)]) p.1 = none := by
      intro p hp
      have hne : (q.1 == p.1) = false := by
        cases hqb : q.1 == p.1
        · rfl
        · exact absurd (by rw [beq_iff_eq.mp hqb]; exact List.mem_map_of_mem Prod.fst hp)
            hqnotin
      rw [lookupS_append, hdisj p (List.mem_cons_of_mem q hp)]
      simp [lookupS, hne]
    have := ih (acc ++ [(q.1, q.2)])
      (fun p hp => htok p (List.mem_cons_of_mem q hp))
      (fun p hp => hlen p (List.mem_cons_of_mem q hp))
      hrestnodup hstep
    simp only [List.map_cons, loadLoop, hrec, hset, this, List.append_assoc,
      List.singleton_append]

/-- Claim C5: persisting any store whose state is reachable by the
program (distinct keys, each session keyed and tokened consistently,
buffers within capacity) and loading the snapshot back reproduces the
mapping exactly — same tokens, `created_at`, `expires_at` and
`last_seen` round-tripped losslessly (`none` surviving as `none`), and
each session's ordered update sequence intact. -/
theorem c5_save_load_roundtrip (ss : Store)
    (htok : ∀ p ∈ ss, p.2.token = p.1)
    (hlen : ∀ p ∈ ss, p.2.updates.length ≤ MAX_UPDATES)
    (hnodup : (ss.map Prod.fst).Nodup) :
    load_sessions_from_disk (.json (persistVal ss)) = .ok ss := by
  have h0 : load_sessions_from_disk (.json (persistVal ss))
      = loadLoop (ss.map fun p => (p.1, sessionToJVal p.1 p.2)) [] := rfl
  rw [h0, loadLoop_persist ss [] htok hlen hnodup (fun p _ => rfl)]
  rfl

/-- The two-session store of the claim C5 witness: one session with a
`last_seen` and one update, one with neither. -/
def c5Store : Store :=
  [("a", { token := "a", created_at := 3, expires_at := 3603, last_seen := some 7,
           updates := [.obj [("ts", .str (toIso 7)), ("meta", .obj [])]] }),
   ("b", { token := "b", created_at := 4, expires_at := 3604, last_seen := none,
           updates := [] })]

/-- Claim C5 at a concrete input. -/
theorem c5_save_load_roundtrip_witness :
    load_sessions_from_disk (.json (persistVal c5Store)) = .ok c5Store :=
  c5_save_load_roundtrip c5Store (by decide) (by decide) (by decide)

end LiveApp
